import Mathlib

/-!
Shallow embedding of the MediMateBot voice-input chat client
(`src/MediMateBot/client/src/App.jsx`) and of the chatbot server's
`/transcribe` and `/chat` route handlers, together with theorems
settling the specification claims about the reply-section parser,
the voice-capture lifecycle, the message dispatcher and the
transcription endpoint.  Every definition is translated directly
from the JavaScript source; comments cite the source lines.
-/

namespace Miffy

/-- JavaScript whitespace (the ASCII fragment of the regex class
`\s` and of `String.prototype.trim`, which is all these sources ever
produce): space, tab, newline, carriage return, vertical tab, form
feed. -/
def isJsWs (c : Char) : Bool :=
  c = ' ' || c = '\t' || c = '\n' || c = '\r' || c = Char.ofNat 11 || c = Char.ofNat 12

/-- List-level rendering of JavaScript `String.prototype.trim`:
drop leading and trailing whitespace. -/
def trimList (cs : List Char) : List Char :=
  ((cs.dropWhile isJsWs).reverse.dropWhile isJsWs).reverse

/-- JavaScript `s.trim()`. -/
def trimJs (s : String) : String :=
  ⟨trimList s.data⟩

/-- JavaScript `s || d` on strings: the empty string is falsy. -/
def jsOr (s : String) (d : String) : String :=
  if s = "" then d else s

/-- Length of the run of JavaScript whitespace at the head of a
character list (how much a greedy `\s*` consumes). -/
def wsCount : List Char → Nat
  | [] => 0
  | c :: r => if isJsWs c then wsCount r + 1 else 0

/-- Case-insensitive literal match at offset `i` of `cs`
(the regex `i` flag on an ASCII literal). -/
def litAt (cs : List Char) (i : Nat) (lit : String) : Bool :=
  ((cs.drop i).take lit.length).map Char.toLower == lit.data.map Char.toLower

/-- Token alphabet for the header regexes of `formatBotReply`
(App.jsx lines 145-152): a case-insensitive literal, `\s+`, `\s*`,
or a single fixed character. -/
inductive Tok
  | lit (s : String)
  | wsPlus
  | wsStar
  | ch (c : Char)

/-- Match a token sequence at offset `i` of `cs`, returning the
number of characters consumed.  Greedy whitespace is faithful to the
JavaScript regexes here: every `\s*`/`\s+` is followed by `:` or by a
literal starting with a letter, so backtracking into the whitespace
run can never succeed and the maximal run is the unique candidate. -/
def matchToksAt (cs : List Char) : List Tok → Nat → Option Nat
  | [], _ => some 0
  | .lit l :: ts, i =>
      if litAt cs i l then (matchToksAt cs ts (i + l.length)).map (· + l.length) else none
  | .wsPlus :: ts, i =>
      let w := wsCount (cs.drop i)
      if w = 0 then none else (matchToksAt cs ts (i + w)).map (· + w)
  | .wsStar :: ts, i =>
      let w := wsCount (cs.drop i)
      (matchToksAt cs ts (i + w)).map (· + w)
  | .ch c :: ts, i =>
      if (cs.drop i).head? = some c then (matchToksAt cs ts (i + 1)).map (· + 1) else none

/-- Leftmost match of a token sequence in `cs`: the JavaScript regex
search order (start positions tried left to right).  Returns the
start index and the matched length. -/
def findFirstTok (toks : List Tok) (cs : List Char) : Option (Nat × Nat) :=
  (List.range (cs.length + 1)).findSome? fun i =>
    (matchToksAt cs toks i).map fun l => (i, l)

/-- JavaScript `regex.test(line)` for a token-sequence pattern. -/
def testToks (toks : List Tok) (s : String) : Bool :=
  (findFirstTok toks s.data).isSome

/-- JavaScript `line.replace(regex, "")` for a non-global
token-sequence pattern: remove the leftmost match. -/
def removeFirstToks (toks : List Tok) (s : String) : String :=
  match findFirstTok toks s.data with
  | some (i, l) => ⟨s.data.take i ++ s.data.drop (i + l)⟩
  | none => s

/-- App.jsx line 146: `/severity\s*:/i`. -/
def severityToks : List Tok := [.lit "severity", .wsStar, .ch ':']

/-- App.jsx line 147: `/immediate\s+need\s+for\s+attention\s*:/i`. -/
def immediateToks : List Tok :=
  [.lit "immediate", .wsPlus, .lit "need", .wsPlus, .lit "for", .wsPlus,
   .lit "attention", .wsStar, .ch ':']

/-- App.jsx line 149: `/next\s+steps\s*:/i`. -/
def nextStepsToks : List Tok := [.lit "next", .wsPlus, .lit "steps", .wsStar, .ch ':']

/-- App.jsx line 150: `/possible\s+conditions\s*:/i`. -/
def possibleCondToks : List Tok :=
  [.lit "possible", .wsPlus, .lit "conditions", .wsStar, .ch ':']

/-- App.jsx line 151: `/disclaimer\s*:/i`. -/
def disclaimerToks : List Tok := [.lit "disclaimer", .wsStar, .ch ':']

/-- App.jsx line 148: `/(see|seek).*(doctor|medical)/i.test(line)`.
A match exists exactly when `see` occurs (case-insensitively; `seek`
begins with `see`, so the alternation adds nothing to the test) and
`doctor` or `medical` occurs at least three characters later, with no
newline in the gap (`.` does not cross newlines). -/
def seeDoctorTest (s : String) : Bool :=
  let cs := s.data
  (List.range (cs.length + 1)).any fun i =>
    litAt cs i "see" &&
      (List.range (cs.length + 1)).any fun j =>
        decide (i + 3 ≤ j) &&
          ((cs.drop (i + 3)).take (j - (i + 3))).all (fun c => c ≠ '\n') &&
          (litAt cs j "doctor" || litAt cs j "medical")

/-- The six section keys of `formatBotReply` (App.jsx lines 145-152),
in the matcher object's insertion order. -/
inductive SecKey
  | severity
  | immediateNeed
  | seeDoctorIf
  | nextSteps
  | possibleConditions
  | disclaimer
deriving DecidableEq

/-- App.jsx line 159: the keys whose section value is an array. -/
def isListKey : SecKey → Bool
  | .seeDoctorIf => true
  | .nextSteps => true
  | .possibleConditions => true
  | _ => false

/-- The `sections` object of `formatBotReply` (App.jsx line 142):
scalar keys hold a string, list keys hold an ordered list, and an
absent key is `none` (JavaScript `undefined`). -/
structure Sections where
  severity : Option String := none
  immediateNeed : Option String := none
  seeDoctorIf : Option (List String) := none
  nextSteps : Option (List String) := none
  possibleConditions : Option (List String) := none
  disclaimer : Option String := none
deriving DecidableEq

/-- The loop state of `formatBotReply`: the accumulated sections and
`currentKey` (App.jsx line 143). -/
structure ParseState where
  sections : Sections := {}
  currentKey : Option SecKey := none
deriving DecidableEq

/-- JavaScript `Array.isArray(sections[k])`: the stored list for a
list key, `none` for a scalar key (a string or `undefined` is not an
array). -/
def arrayAt (s : Sections) : SecKey → Option (List String)
  | .seeDoctorIf => s.seeDoctorIf
  | .nextSteps => s.nextSteps
  | .possibleConditions => s.possibleConditions
  | _ => none

/-- Write a list value at a list key (`sections[currentKey].push`
updates the stored array; scalar keys never reach this). -/
def setArr (s : Sections) (k : SecKey) (v : List String) : Sections :=
  match k with
  | .seeDoctorIf => { s with seeDoctorIf := some v }
  | .nextSteps => { s with nextSteps := some v }
  | .possibleConditions => { s with possibleConditions := some v }
  | _ => s

/-- App.jsx line 165: `line.replace(matchers[key], "").trim()` for the
scalar keys. -/
def scalarValue : SecKey → String → String
  | .severity, l => trimJs (removeFirstToks severityToks l)
  | .immediateNeed, l => trimJs (removeFirstToks immediateToks l)
  | .disclaimer, l => trimJs (removeFirstToks disclaimerToks l)
  | _, l => l

/-- App.jsx lines 158-166: on a header match, a list key is
reinitialized to an empty array and a scalar key captures the line
with the matched header text removed. -/
def applyHeader (s : Sections) (k : SecKey) (line : String) : Sections :=
  match k with
  | .severity => { s with severity := some (scalarValue .severity line) }
  | .immediateNeed => { s with immediateNeed := some (scalarValue .immediateNeed line) }
  | .disclaimer => { s with disclaimer := some (scalarValue .disclaimer line) }
  | .seeDoctorIf => { s with seeDoctorIf := some [] }
  | .nextSteps => { s with nextSteps := some [] }
  | .possibleConditions => { s with possibleConditions := some [] }

/-- App.jsx lines 155-156: `for (let key in matchers)` tests the six
patterns in insertion order and the first test that succeeds wins. -/
def firstMatcher (line : String) : Option SecKey :=
  if testToks severityToks line then some .severity
  else if testToks immediateToks line then some .immediateNeed
  else if seeDoctorTest line then some .seeDoctorIf
  else if testToks nextStepsToks line then some .nextSteps
  else if testToks possibleCondToks line then some .possibleConditions
  else if testToks disclaimerToks line then some .disclaimer
  else none

/-- App.jsx line 171: `line.startsWith("-")`. -/
def startsDash (s : String) : Bool :=
  match s.data with
  | '-' :: _ => true
  | _ => false

/-- App.jsx line 172: replacing the anchored-leading-dash regex with
the empty string removes one leading dash when present. -/
def dropLeadDash (s : String) : String :=
  match s.data with
  | '-' :: r => ⟨r⟩
  | _ => s

/-- The character class `[-•*0-9]` of App.jsx line 174. -/
def bulletChar (c : Char) : Bool :=
  c = '-' || c = '•' || c = '*' || c.isDigit

/-- App.jsx line 174: `/^[-•*0-9]+\./.test(line)`.  The class
excludes `.`, so greedy `+` with backtracking matches exactly when
the maximal leading class run is nonempty and the next character is a
period. -/
def bulletDotTest (s : String) : Bool :=
  let run := (s.data.takeWhile bulletChar).length
  decide (0 < run) && ((s.data.drop run).head? == some '.')

/-- App.jsx line 178: `line.replace(/^[-•*0-9.]+\s*/, "")` — strip
the leading run of marker characters and dots, then any following
whitespace; a line not starting in the class is left unchanged. -/
def stripBulletMarker (s : String) : String :=
  match s.data with
  | c :: _ =>
      if bulletChar c || c = '.' then
        ⟨(s.data.dropWhile fun d => bulletChar d || d = '.').dropWhile isJsWs⟩
      else s
  | [] => s

/-- App.jsx lines 171-179: the two bullet branches, reached only when
no header pattern matched the line. -/
def stepContent (s : Sections) (ck : Option SecKey) (line : String) : Sections :=
  match ck with
  | none => s
  | some k =>
      match arrayAt s k with
      | none => s
      | some items =>
          if startsDash line then
            setArr s k (items ++ [trimJs (dropLeadDash line)])
          else if bulletDotTest line then
            setArr s k (items ++ [trimJs (stripBulletMarker line)])
          else s

/-- One iteration of the `lines.forEach` body of `formatBotReply`
(App.jsx lines 154-180). -/
def step (st : ParseState) (line : String) : ParseState :=
  match firstMatcher line with
  | some k => ⟨applyHeader st.sections k line, some k⟩
  | none => ⟨stepContent st.sections st.currentKey line, st.currentKey⟩

/-- JavaScript `text.split("\n")` over the character list: the
fragments between newline separators, in order, empty fragments
included. -/
def splitNl : List Char → List (List Char)
  | [] => [[]]
  | c :: r =>
      if c = '\n' then [] :: splitNl r
      else
        match splitNl r with
        | h :: t => (c :: h) :: t
        | [] => [[c]]

/-- App.jsx line 141:
`text.split("\n").map((l) => l.trim()).filter(Boolean)`. -/
def splitLines (text : String) : List String :=
  ((splitNl text.data).map fun l => trimJs ⟨l⟩).filter (fun l => l ≠ "")

/-- Run the parser loop from a given state over a list of lines. -/
def processFrom (st : ParseState) (lines : List String) : ParseState :=
  lines.foldl step st

/-- The section-collecting core of `formatBotReply` (App.jsx lines
140-180): the `sections` object after scanning every line.  The JSX
below line 182 renders this record and adds nothing to it. -/
def formatBotReply (text : String) : Sections :=
  (processFrom {} (splitLines text)).sections

/-- Uniform projection of one section's value: scalar values tagged
`inl`, list values tagged `inr`. -/
def secProj (s : Sections) : SecKey → Option (String ⊕ List String)
  | .severity => s.severity.map Sum.inl
  | .immediateNeed => s.immediateNeed.map Sum.inl
  | .disclaimer => s.disclaimer.map Sum.inl
  | .seeDoctorIf => s.seeDoctorIf.map Sum.inr
  | .nextSteps => s.nextSteps.map Sum.inr
  | .possibleConditions => s.possibleConditions.map Sum.inr

/-- App.jsx line 79: `mediaRecorder.mimeType || "audio/webm"` — the
concrete encoding the recorder chose, with a fallback for an empty
report. -/
def actualMimeTypeOf (recorderMime : String) : String :=
  jsOr recorderMime "audio/webm"

/-- Size of the finalized `Blob`: the total size of the collected
chunks (App.jsx lines 70-71 push every nonempty chunk; line 80 builds
one blob from them). -/
def blobSizeOf (chunkSizes : List Nat) : Nat :=
  chunkSizes.foldl (· + ·) 0

/-- Outcome of the `onstop` handler (App.jsx lines 75-113) up to the
point where the network request leaves: either the handler returns
early with a voice error and never enters the transcribing state, or
it issues a POST to the `/transcribe` endpoint whose body carries the
given `mimeType` value. -/
inductive StopOutcome
  | error (msg : String)
  | request (mimeType : String)
deriving DecidableEq

/-- App.jsx lines 78-98: the `onstop` handler.  It computes
`actualMimeType`, builds the blob, rejects a blob smaller than 500
bytes with the no-audio error before `setIsTranscribing(true)` and
before any fetch, and otherwise sends `mimeType: actualMimeType` —
unmodified — to the `/transcribe` endpoint. -/
def onstopOutcome (recorderMime : String) (chunkSizes : List Nat) : StopOutcome :=
  let actualMimeType := actualMimeTypeOf recorderMime
  if blobSizeOf chunkSizes < 500 then
    .error "No audio captured. Please try again."
  else
    .request actualMimeType

/-- Device-relevant state of the voice feature in App.jsx: the
`isListening`/`isTranscribing` flags, whether `mediaRecorderRef` holds
a recorder, whether the microphone stream is currently held, and
counters for acquisitions and releases of the device. -/
structure VoiceAppState where
  isListening : Bool := false
  isTranscribing : Bool := false
  hasRecorder : Bool := false
  micHeld : Bool := false
  acquisitions : Nat := 0
  releases : Nat := 0
deriving DecidableEq

/-- Events driving the voice lifecycle of App.jsx: a `startListening`
call whose `getUserMedia` succeeds, one whose `getUserMedia` rejects,
a `stopListening` click together with the `onstop` callback it
triggers (carrying the finalized blob size), completion of the
transcription request, and teardown of the owning component. -/
inductive VoiceEvent
  | startOk
  | startDenied
  | stopClick (blobSize : Nat)
  | transcribeDone
  | teardown
deriving DecidableEq

/-- One event of the voice lifecycle, translated from App.jsx:
`startOk`/`startDenied` follow `startListening` (lines 59-124) with
its `isListening || isTranscribing` guard; a successful start acquires
the stream (line 65), stores the recorder (line 67) and starts it
(lines 115-116).  `stopClick` follows `stopListening` (lines 126-130)
with its `!mediaRecorderRef.current || !isListening` guard, and folds
in the `onstop` callback it triggers, which stops the stream's tracks
(line 76) — the sole place the device is released — and then applies
the minimum-size check (lines 83-88).  `transcribeDone` clears the
transcribing flag (lines 100, 108).  `teardown` is component unmount:
App.jsx registers no cleanup for the recorder or the stream (its only
effects, lines 21-28, return no cleanup touching them), so teardown
leaves the device state unchanged. -/
def voiceStep (s : VoiceAppState) : VoiceEvent → VoiceAppState
  | .startOk =>
      if s.isListening || s.isTranscribing then s
      else
        { s with
          acquisitions := s.acquisitions + 1
          micHeld := true
          hasRecorder := true
          isListening := true }
  | .startDenied => s
  | .stopClick blobSize =>
      if !s.hasRecorder || !s.isListening then s
      else
        let released :=
          { s with
            isListening := false
            micHeld := false
            releases := s.releases + 1 }
        if blobSize < 500 then released
        else { released with isTranscribing := true }
  | .transcribeDone => { s with isTranscribing := false }
  | .teardown => s

/-- Run the voice lifecycle from the initial mounted state over a
sequence of events. -/
def voiceRun (events : List VoiceEvent) : VoiceAppState :=
  events.foldl voiceStep {}

/-- One chat message (App.jsx lines 36, 45-53): a role tag (`"user"`
or `"bot"`) and its text. -/
structure Message where
  role : String
  text : String
deriving DecidableEq

/-- Result of the POST to the conversation endpoint as `sendMessage`
sees it: a parsed JSON body whose `reply` field may be absent or
empty, or a thrown network error. -/
inductive ChatFetch
  | ok (reply : Option String)
  | fail
deriving DecidableEq

/-- App.jsx lines 32-55: `sendMessage`.  The argument is the optional
`textOverride` (a non-string call-site argument, such as a click
event, reads the `input` state instead).  Returns the messages the
call appends in order, the `symptoms` value of the request it issues
(`none` when no request leaves), and whether it cleared the input
field.  Blank input — `!text.trim()` — returns before any of these
effects.  `data.reply || "No reply from server."` treats an absent or
empty reply as the fallback text, and a thrown fetch appends the
generic error message. -/
def sendMessage (textOverride : Option String) (input : String) (fetch : ChatFetch) :
    List Message × Option String × Bool :=
  let text := match textOverride with
    | some t => t
    | none => input
  if trimJs text = "" then ([], none, false)
  else
    let userMsg : Message := ⟨"user", text⟩
    let botMsg : Message :=
      match fetch with
      | .ok reply => ⟨"bot", jsOr (reply.getD "") "No reply from server."⟩
      | .fail => ⟨"bot", "Error connecting to server."⟩
    ([userMsg, botMsg], some text, true)

/-- JavaScript truthiness test `!x` for an optional string field of a
parsed JSON body: missing or empty is falsy. -/
def jsFalsyStr : Option String → Bool
  | none => true
  | some s => s = ""

/-- Server line 48:
`(mimeType || "audio/webm").split(";")[0].trim()` — element `[0]` of
the split is the part of the string before its first semicolon, which
is `takeWhile` of "not a semicolon". -/
def safeMimeType (mimeType : Option String) : String :=
  let m := jsOr (mimeType.getD "") "audio/webm"
  trimJs ⟨m.data.takeWhile fun c => c ≠ ';'⟩

/-- Result of the Gemini `generateContent` call inside the
`/transcribe` handler: the returned text, or a thrown error whose
`message` field may be absent or empty. -/
inductive ProviderOutcome
  | ok (text : String)
  | err (message : Option String)
deriving DecidableEq

/-- JSON response of a route handler: HTTP status plus the
`transcript` or `error` body field. -/
structure TranscribeResponse where
  status : Nat
  transcript : Option String := none
  error : Option String := none
deriving DecidableEq

/-- Server lines 42-76: the POST `/transcribe` handler.  `!audio`
returns 400 with "Audio data required"; a provider success whose
trimmed text is empty returns 422; a nonempty trimmed transcript
returns 200; a thrown provider error returns 500 with
`error.message || "Transcription failed"`. -/
def transcribeHandler (audio : Option String) (provider : ProviderOutcome) :
    TranscribeResponse :=
  if jsFalsyStr audio then { status := 400, error := some "Audio data required" }
  else
    match provider with
    | .ok t =>
        let transcript := trimJs t
        if transcript = "" then
          { status := 422
            error := some "Gemini returned an empty transcript. Audio may be too quiet or silent." }
        else { status := 200, transcript := some transcript }
    | .err m =>
        { status := 500, error := some (jsOr (m.getD "") "Transcription failed") }

/-- Server lines 48-63: the mime type the `/transcribe` handler hands
to the transcription provider (`inlineData.mimeType`), when the
provider is reached at all — a missing `audio` field returns before
the provider call. -/
def transcribeProviderMime (audio : Option String) (mimeType : Option String) :
    Option String :=
  if jsFalsyStr audio then none else some (safeMimeType mimeType)

/-- Effect of the bullet branches (App.jsx lines 171-179) on the value
of one section, expressed on the projected value: only a stored list
can grow, and only by the stripped bullet remainder appended at the
tail. -/
def contentAt (v : Option (String ⊕ List String)) (line : String) :
    Option (String ⊕ List String) :=
  match v with
  | some (.inr items) =>
      if startsDash line then some (.inr (items ++ [trimJs (dropLeadDash line)]))
      else if bulletDotTest line then some (.inr (items ++ [trimJs (stripBulletMarker line)]))
      else some (.inr items)
  | v => v

lemma step_match {line : String} {k : SecKey} (st : ParseState)
    (h : firstMatcher line = some k) :
    step st line = ⟨applyHeader st.sections k line, some k⟩ := by
  simp [step, h]

lemma step_noMatch {line : String} (st : ParseState)
    (h : firstMatcher line = none) :
    step st line = ⟨stepContent st.sections st.currentKey line, st.currentKey⟩ := by
  simp [step, h]

lemma secProj_applyHeader_self (s : Sections) (k : SecKey) (line : String) :
    secProj (applyHeader s k line) k
      = if isListKey k then some (Sum.inr []) else some (Sum.inl (scalarValue k line)) := by
  cases k <;> simp [applyHeader, secProj, isListKey]

lemma secProj_applyHeader_ne (s : Sections) {j k : SecKey} (line : String) (h : j ≠ k) :
    secProj (applyHeader s j line) k = secProj s k := by
  cases j <;> cases k <;> first
    | exact absurd rfl h
    | simp [applyHeader, secProj]

lemma secProj_setArr_ne (s : Sections) {m k : SecKey} (v : List String) (h : m ≠ k) :
    secProj (setArr s m v) k = secProj s k := by
  cases m <;> cases k <;> first
    | exact absurd rfl h
    | simp [setArr, secProj]

lemma secProj_stepContent_self (s : Sections) (k : SecKey) (line : String) :
    secProj (stepContent s (some k) line) k = contentAt (secProj s k) line := by
  cases k with
  | severity => cases h : s.severity <;> simp [stepContent, arrayAt, secProj, contentAt, h]
  | immediateNeed =>
      cases h : s.immediateNeed <;> simp [stepContent, arrayAt, secProj, contentAt, h]
  | disclaimer => cases h : s.disclaimer <;> simp [stepContent, arrayAt, secProj, contentAt, h]
  | seeDoctorIf =>
      cases h : s.seeDoctorIf with
      | none => simp [stepContent, arrayAt, secProj, contentAt, h]
      | some items =>
          by_cases hd : startsDash line
          · simp [stepContent, arrayAt, secProj, contentAt, h, hd, setArr]
          · by_cases hb : bulletDotTest line <;>
              simp [stepContent, arrayAt, secProj, contentAt, h, hd, hb, setArr]
  | nextSteps =>
      cases h : s.nextSteps with
      | none => simp [stepContent, arrayAt, secProj, contentAt, h]
      | some items =>
          by_cases hd : startsDash line
          · simp [stepContent, arrayAt, secProj, contentAt, h, hd, setArr]
          · by_cases hb : bulletDotTest line <;>
              simp [stepContent, arrayAt, secProj, contentAt, h, hd, hb, setArr]
  | possibleConditions =>
      cases h : s.possibleConditions with
      | none => simp [stepContent, arrayAt, secProj, contentAt, h]
      | some items =>
          by_cases hd : startsDash line
          · simp [stepContent, arrayAt, secProj, contentAt, h, hd, setArr]
          · by_cases hb : bulletDotTest line <;>
              simp [stepContent, arrayAt, secProj, contentAt, h, hd, hb, setArr]

lemma secProj_stepContent_ne (s : Sections) {m k : SecKey} (line : String) (h : m ≠ k) :
    secProj (stepContent s (some m) line) k = secProj s k := by
  cases ha : arrayAt s m with
  | none => simp [stepContent, ha]
  | some items =>
      simp only [stepContent, ha]
      by_cases hd : startsDash line
      · simp [hd, secProj_setArr_ne s _ h]
      · by_cases hb : bulletDotTest line <;> simp [hd, hb, secProj_setArr_ne s _ h]

lemma stepContent_eq_of_none (s : Sections) (line : String) :
    stepContent s none line = s := rfl

/-- Evolution of one section's value under the parser loop depends
only on the current key and on that section's own value: two states
agreeing on both stay in agreement over any further lines. -/
lemma processFrom_proj (k : SecKey) (L : List String) :
    ∀ (s t : ParseState), s.currentKey = t.currentKey →
      secProj s.sections k = secProj t.sections k →
      (processFrom s L).currentKey = (processFrom t L).currentKey
        ∧ secProj (processFrom s L).sections k = secProj (processFrom t L).sections k := by
  induction L with
  | nil => intro s t hc hp; exact ⟨hc, hp⟩
  | cons line L ih =>
      intro s t hc hp
      have h1 : (step s line).currentKey = (step t line).currentKey := by
        cases hm : firstMatcher line with
        | some j => rw [step_match s hm, step_match t hm]
        | none => rw [step_noMatch s hm, step_noMatch t hm]; exact hc
      have h2 : secProj (step s line).sections k = secProj (step t line).sections k := by
        cases hm : firstMatcher line with
        | some j =>
            rw [step_match s hm, step_match t hm]
            dsimp only
            by_cases hjk : j = k
            · subst hjk; rw [secProj_applyHeader_self, secProj_applyHeader_self]
            · rw [secProj_applyHeader_ne _ _ hjk, secProj_applyHeader_ne _ _ hjk]
              exact hp
        | none =>
            rw [step_noMatch s hm, step_noMatch t hm]
            dsimp only
            rw [← hc]
            cases hck : s.currentKey with
            | none => rw [stepContent_eq_of_none, stepContent_eq_of_none]; exact hp
            | some m =>
                by_cases hmk : m = k
                · subst hmk
                  rw [secProj_stepContent_self, secProj_stepContent_self, hp]
                · rw [secProj_stepContent_ne _ _ hmk, secProj_stepContent_ne _ _ hmk]
                  exact hp
      exact ih (step s line) (step t line) h1 h2

lemma mem_of_mem_trimList {l : List Char} {c : Char} (h : c ∈ trimList l) : c ∈ l := by
  rw [trimList, List.mem_reverse] at h
  have h2 : c ∈ (l.dropWhile isJsWs).reverse := (List.dropWhile_sublist _).mem h
  rw [List.mem_reverse] at h2
  exact (List.dropWhile_sublist _).mem h2

lemma mem_takeWhile_pred {p : Char → Bool} {l : List Char} {c : Char}
    (h : c ∈ l.takeWhile p) : p c = true := by
  induction l with
  | nil => simp [List.takeWhile] at h
  | cons a t ih =>
      rw [List.takeWhile_cons] at h
      by_cases hpa : p a = true
      · rw [if_pos hpa] at h
        rcases List.mem_cons.mp h with rfl | h2
        · exact hpa
        · exact ih h2
      · rw [if_neg hpa] at h
        cases h

lemma safeMime_no_semi (mt : Option String) :
    ((safeMimeType mt).data.all fun c => c ≠ ';') = true := by
  simp only [safeMimeType, trimJs, List.all_eq_true]
  intro c hc
  exact mem_takeWhile_pred (mem_of_mem_trimList hc)

lemma takeWhile_semi_append (base rest : List Char) (h : ∀ c ∈ base, c ≠ ';') :
    ((base ++ ';' :: rest).takeWhile fun c => c ≠ ';') = base := by
  induction base with
  | nil => rw [List.nil_append, List.takeWhile_cons, if_neg (by simp)]
  | cons a b ih =>
      have ha : a ≠ ';' := h a (List.mem_cons_self a b)
      rw [List.cons_append, List.takeWhile_cons, if_pos (decide_eq_true ha),
        ih (fun c hc => h c (List.mem_cons_of_mem _ hc))]

lemma dropWhile_eq_self_of (p : Char → Bool) (l : List Char)
    (h : ∀ c ∈ l, p c = false) : l.dropWhile p = l := by
  cases l with
  | nil => rfl
  | cons a t => simp [List.dropWhile_cons, h a (List.mem_cons_self a t)]

lemma trimList_eq_self (l : List Char) (h : ∀ c ∈ l, isJsWs c = false) :
    trimList l = l := by
  rw [trimList, dropWhile_eq_self_of _ _ h,
    dropWhile_eq_self_of _ _ (fun c hc => h c (List.mem_reverse.mp hc)),
    List.reverse_reverse]

/-- Claim C1, as stated, is false on the code: for the recording mime
type `"audio/webm;codecs=opus"` and a 2000-byte blob, the `onstop`
handler issues its POST to the transcription endpoint (`/transcribe`)
with the `mimeType` value `"audio/webm;codecs=opus"` — the codec
parameter is still present in the value sent to the endpoint, not
removed before sending. -/
theorem c1_counterexample :
    onstopOutcome "audio/webm;codecs=opus" [2000]
        = .request "audio/webm;codecs=opus"
      ∧ ("audio/webm;codecs=opus".data.any fun c => c = ';') = true
      ∧ "audio/webm;codecs=opus" ≠ "audio/webm" := by
  decide

/-- Claim C1 (amended): the client sends the recorder's mime type to
the transcription endpoint unchanged; it is the endpoint's handler
that strips the codec parameter before handing the audio to the
transcription provider, so the provider-bound mime type never
contains a `;` and, for a mime type of the form
`base ++ ";" ++ codecParams` (with `base` semicolon- and
whitespace-free), equals the bare container type `base`. -/
theorem c1_amended :
    (∀ (recorderMime : String) (chunkSizes : List Nat) (m : String),
        onstopOutcome recorderMime chunkSizes = .request m →
        m = actualMimeTypeOf recorderMime)
      ∧ (∀ (audio mt : Option String) (pm : String),
          transcribeProviderMime audio mt = some pm →
          (pm.data.all fun c => c ≠ ';') = true)
      ∧ (∀ (base rest : List Char),
          (∀ c ∈ base, c ≠ ';') → (∀ c ∈ base, isJsWs c = false) →
          safeMimeType (some ⟨base ++ ';' :: rest⟩) = ⟨base⟩) := by
  refine ⟨?_, ?_, ?_⟩
  · intro recorderMime chunkSizes m h
    unfold onstopOutcome at h
    by_cases hlt : blobSizeOf chunkSizes < 500
    · simp [hlt] at h
    · simp [hlt] at h
      exact h.symm
  · intro audio mt pm h
    unfold transcribeProviderMime at h
    by_cases hf : jsFalsyStr audio = true
    · simp [hf] at h
    · simp [hf] at h
      rw [← h]
      exact safeMime_no_semi mt
  · intro base rest h1 h2
    have hne : (⟨base ++ ';' :: rest⟩ : String) ≠ "" := by
      intro he
      have hd := congrArg String.data he
      simp at hd
    simp only [safeMimeType, Option.getD]
    rw [jsOr, if_neg hne]
    show trimJs ⟨(base ++ ';' :: rest).takeWhile _⟩ = ⟨base⟩
    rw [takeWhile_semi_append base rest h1]
    show (⟨trimList base⟩ : String) = ⟨base⟩
    rw [trimList_eq_self base h2]

/-- Witness for the amended claim C1 at the spec's own example: the
client-sent value is the unchanged recorder mime type, and the
provider-bound value computed by the endpoint for
`"audio/webm;codecs=opus"` is the bare `"audio/webm"`, which contains
no semicolon. -/
theorem c1_amended_witness :
    "audio/webm;codecs=opus" = actualMimeTypeOf "audio/webm;codecs=opus"
      ∧ ("audio/webm".data.all fun c => c ≠ ';') = true
      ∧ safeMimeType (some "audio/webm;codecs=opus") = "audio/webm" := by
  refine ⟨?_, ?_, ?_⟩
  · exact c1_amended.1 "audio/webm;codecs=opus" [2000] _ (by decide)
  · exact c1_amended.2.1 (some "x") (some "audio/webm;codecs=opus") "audio/webm" (by decide)
  · have h := c1_amended.2.2 "audio/webm".data "codecs=opus".data
      (by decide) (by decide)
    have e1 : (⟨"audio/webm".data ++ ';' :: "codecs=opus".data⟩ : String)
        = "audio/webm;codecs=opus" := by decide
    have e2 : (⟨"audio/webm".data⟩ : String) = "audio/webm" := rfl
    rw [e1, e2] at h
    exact h

/-- Claim C2: evaluation at the failing event sequence.  After a
successful `startListening` the microphone is acquired; App.jsx
registers no cleanup that stops the recorder or the stream on
teardown of the owning component, so tearing the component down while
listening leaves the device held: one acquisition and zero releases,
contradicting "released exactly once per acquisition on every exit
path, including teardown". -/
theorem c2_teardown_leak :
    voiceRun [.startOk, .teardown]
      = { isListening := true, isTranscribing := false, hasRecorder := true,
          micHeld := true, acquisitions := 1, releases := 0 } := by
  decide

/-- Claim C3, as stated, is false on the code: under the open list
section "Next Steps", the line `"• go to the hospital"` begins with
the bullet marker `•`, yet it is dropped — the first bullet branch
requires a leading `-` and the second requires the marker run to be
followed by a period — so the section's list stays empty instead of
receiving `"go to the hospital"`. -/
theorem c3_counterexample :
    splitLines "Next Steps:\n• go to the hospital"
        = ["Next Steps:", "• go to the hospital"]
      ∧ formatBotReply "Next Steps:\n• go to the hospital" = { nextSteps := some [] }
      ∧ formatBotReply "Next Steps:\n• go to the hospital"
          ≠ { nextSteps := some ["go to the hospital"] } := by
  decide

/-- Claim C3 (amended): under an open list section, for a line on
which no header pattern fires: a line beginning with `-` has exactly
one leading dash stripped and the trimmed remainder appended at the
tail of that section's list; otherwise a line whose maximal leading
run of characters from {`-`, `•`, `*`, digits} is nonempty and
immediately followed by `.` has that leading marker run (dots
included) and any following whitespace stripped and the trimmed
remainder appended at the tail; any other line — including `•` or `*`
bullets not followed by a period — leaves the state unchanged. -/
theorem c3_amended :
    ∀ (st : ParseState) (line : String) (k : SecKey) (items : List String),
      firstMatcher line = none →
      st.currentKey = some k →
      arrayAt st.sections k = some items →
      (startsDash line = true →
          step st line
            = ⟨setArr st.sections k (items ++ [trimJs (dropLeadDash line)]), some k⟩)
        ∧ (startsDash line = false → bulletDotTest line = true →
            step st line
              = ⟨setArr st.sections k (items ++ [trimJs (stripBulletMarker line)]), some k⟩)
        ∧ (startsDash line = false → bulletDotTest line = false → step st line = st) := by
  intro st line k items h hck ha
  refine ⟨?_, ?_, ?_⟩
  · intro hd
    rw [step_noMatch _ h, hck]
    simp [stepContent, ha, hd]
  · intro hd hb
    rw [step_noMatch _ h, hck]
    simp [stepContent, ha, hd, hb]
  · intro hd hb
    calc step st line
        = ⟨stepContent st.sections st.currentKey line, st.currentKey⟩ := step_noMatch _ h
      _ = ⟨st.sections, st.currentKey⟩ := by rw [hck]; simp [stepContent, ha, hd, hb]
      _ = st := rfl

/-- Witness for the amended claim C3: with "Next Steps" open and
empty, the dash bullet `"- rest"` is appended stripped and trimmed,
and the numbered bullet `"1. hydrate"` is appended with its marker
run and whitespace stripped. -/
theorem c3_amended_witness :
    firstMatcher "- rest" = none
      ∧ (processFrom {} ["Next Steps:"]).currentKey = some .nextSteps
      ∧ arrayAt (processFrom {} ["Next Steps:"]).sections .nextSteps = some []
      ∧ step (processFrom {} ["Next Steps:"]) "- rest"
          = ⟨setArr (processFrom {} ["Next Steps:"]).sections .nextSteps
              ([] ++ [trimJs (dropLeadDash "- rest")]), some .nextSteps⟩
      ∧ step (processFrom {} ["Next Steps:"]) "1. hydrate"
          = ⟨setArr (processFrom {} ["Next Steps:"]).sections .nextSteps
              ([] ++ [trimJs (stripBulletMarker "1. hydrate")]), some .nextSteps⟩ := by
  refine ⟨by decide, by decide, by decide, ?_, ?_⟩
  · exact (c3_amended (processFrom {} ["Next Steps:"]) "- rest" .nextSteps []
      (by decide) (by decide) (by decide)).1 (by decide)
  · exact (c3_amended (processFrom {} ["Next Steps:"]) "1. hydrate" .nextSteps []
      (by decide) (by decide) (by decide)).2.1 (by decide) (by decide)

/-- Claim C4: a finalized blob smaller than 500 bytes makes the
`onstop` handler return with the no-audio voice error before
`setIsTranscribing(true)` and before any request to the transcription
endpoint — the outcome is the error, never a request. -/
theorem c4_min_size :
    ∀ (recorderMime : String) (chunkSizes : List Nat),
      blobSizeOf chunkSizes < 500 →
      onstopOutcome recorderMime chunkSizes
        = .error "No audio captured. Please try again." := by
  intro recorderMime chunkSizes h
  simp [onstopOutcome, h]

/-- Witness for claim C4 at a concrete 100-byte recording. -/
theorem c4_min_size_witness :
    blobSizeOf [60, 40] < 500
      ∧ onstopOutcome "audio/webm;codecs=opus" [60, 40]
          = .error "No audio captured. Please try again." :=
  ⟨by decide, c4_min_size "audio/webm;codecs=opus" [60, 40] (by decide)⟩

/-- Claim C5: dispatching a string whose trimmed value is empty has
no side effects — `sendMessage` appends no message, issues no request
to the conversation endpoint, and does not clear the input field. -/
theorem c5_blank_noop :
    ∀ (textOverride : Option String) (input : String) (fetch : ChatFetch),
      trimJs (textOverride.getD input) = "" →
      sendMessage textOverride input fetch = ([], none, false) := by
  intro textOverride input fetch h
  cases textOverride <;> simp_all [sendMessage, Option.getD]

/-- Witness for claim C5 at the whitespace-only override `"   "`. -/
theorem c5_blank_noop_witness :
    trimJs ((some "   ").getD "typed text") = ""
      ∧ sendMessage (some "   ") "typed text" (.ok (some "reply")) = ([], none, false) :=
  ⟨by decide, c5_blank_noop (some "   ") "typed text" (.ok (some "reply")) (by decide)⟩

/-- Claim C6: lines preceding the first recognized header leave the
parse unchanged (so they contribute nothing and raise no error), a
non-bullet line under an open list section leaves the state
unchanged, and in particular `"- chest pain"` arriving before its
header `"Next Steps:"` is dropped and never retroactively attached —
the parse of the two-line text holds only the empty "Next Steps"
list. -/
theorem c6_dropped_lines :
    (∀ (L1 L2 : List String), (∀ l ∈ L1, firstMatcher l = none) →
        processFrom {} (L1 ++ L2) = processFrom {} L2)
      ∧ (∀ (st : ParseState) (line : String) (k : SecKey) (items : List String),
          firstMatcher line = none → st.currentKey = some k →
          arrayAt st.sections k = some items →
          startsDash line = false → bulletDotTest line = false →
          step st line = st)
      ∧ formatBotReply "- chest pain\nNext Steps:" = { nextSteps := some [] } := by
  refine ⟨?_, ?_, by decide⟩
  · intro L1
    induction L1 with
    | nil => intro L2 h; rfl
    | cons a L ih =>
        intro L2 h
        have ha : firstMatcher a = none := h a (List.mem_cons_self a L)
        have hstep : step {} a = {} := by
          rw [step_noMatch _ ha]
          rfl
        calc processFrom {} ((a :: L) ++ L2)
            = processFrom (step {} a) (L ++ L2) := rfl
          _ = processFrom {} (L ++ L2) := by rw [hstep]
          _ = processFrom {} L2 := ih L2 (fun l hl => h l (List.mem_cons_of_mem _ hl))
  · intro st line k items h hck ha hd hb
    calc step st line
        = ⟨stepContent st.sections st.currentKey line, st.currentKey⟩ := step_noMatch _ h
      _ = ⟨st.sections, st.currentKey⟩ := by rw [hck]; simp [stepContent, ha, hd, hb]
      _ = st := rfl

/-- Witness for claim C6: the unmatched prefix `["- chest pain"]` is
skipped whole, and the non-bullet line `"take it easy"` under the
open "Next Steps" section changes nothing. -/
theorem c6_dropped_lines_witness :
    processFrom {} (["- chest pain"] ++ ["Next Steps:"]) = processFrom {} ["Next Steps:"]
      ∧ step (processFrom {} ["Next Steps:"]) "take it easy"
          = processFrom {} ["Next Steps:"] :=
  ⟨c6_dropped_lines.1 ["- chest pain"] ["Next Steps:"] (by decide),
   c6_dropped_lines.2.1 (processFrom {} ["Next Steps:"]) "take it easy" .nextSteps []
     (by decide) (by decide) (by decide) (by decide) (by decide)⟩

/-- Claim C7: a later header line `h` of kind `k` makes everything
accumulated for `k` before it irrelevant — the final value of section
`k` after `L1 ++ h :: L2` equals its value after parsing `h :: L2`
from the initial state, whatever `L1` and the prior state were
(applied to the last occurrence of a duplicated header, this is
"last occurrence wins"); moreover the header line itself reinitializes
a list section to the empty list and sets a scalar section to the
remainder of its own line with the matched header text removed. -/
theorem c7_duplicate_header :
    ∀ (st : ParseState) (L1 L2 : List String) (h : String) (k : SecKey),
      firstMatcher h = some k →
      secProj (processFrom st (L1 ++ h :: L2)).sections k
          = secProj (processFrom {} (h :: L2)).sections k
        ∧ (isListKey k = true → secProj (step st h).sections k = some (Sum.inr []))
        ∧ (isListKey k = false →
            secProj (step st h).sections k = some (Sum.inl (scalarValue k h))) := by
  intro st L1 L2 h k hm
  refine ⟨?_, ?_, ?_⟩
  · have e1 : processFrom st (L1 ++ h :: L2)
        = processFrom (step (processFrom st L1) h) L2 := by
      simp [processFrom, List.foldl_append, List.foldl]
    have e2 : processFrom {} (h :: L2) = processFrom (step ({} : ParseState) h) L2 := rfl
    rw [e1, e2]
    refine (processFrom_proj k L2 _ _ ?_ ?_).2
    · rw [step_match _ hm, step_match _ hm]
    · rw [step_match _ hm, step_match _ hm]
      dsimp only
      rw [secProj_applyHeader_self, secProj_applyHeader_self]
  · intro hk
    rw [step_match _ hm]
    dsimp only
    rw [secProj_applyHeader_self, hk]
    rfl
  · intro hk
    rw [step_match _ hm]
    dsimp only
    rw [secProj_applyHeader_self, hk]
    rfl

/-- Witness for claim C7: with a duplicated "Next Steps:" header the
final list is the one accumulated after the second occurrence, and a
"Next Steps:" header line reinitializes the section to the empty
list. -/
theorem c7_duplicate_header_witness :
    secProj (processFrom {} (["Next Steps:", "- a"] ++ "Next Steps:" :: ["- b"])).sections
          .nextSteps
        = secProj (processFrom {} ("Next Steps:" :: ["- b"])).sections .nextSteps
      ∧ secProj (step {} "Next Steps:").sections .nextSteps = some (Sum.inr []) :=
  ⟨(c7_duplicate_header {} ["Next Steps:", "- a"] ["- b"] "Next Steps:" .nextSteps
      (by decide)).1,
   (c7_duplicate_header {} [] [] "Next Steps:" .nextSteps (by decide)).2.1 (by decide)⟩

/-- Claim C8: the `/transcribe` handler returns 400 with
"Audio data required" when the `audio` field is missing (or empty,
which JavaScript `!audio` also treats as missing), 422 when the
provider succeeds but its trimmed text is empty, and 500 with the
provider's own `message` passed through verbatim when one is
available, falling back to "Transcription failed" otherwise. -/
theorem c8_status_taxonomy :
    ∀ (audio : Option String) (provider : ProviderOutcome),
      (jsFalsyStr audio = true →
          transcribeHandler audio provider
            = { status := 400, error := some "Audio data required" })
        ∧ (∀ t, jsFalsyStr audio = false → provider = .ok t → trimJs t = "" →
            transcribeHandler audio provider
              = { status := 422,
                  error := some
                    "Gemini returned an empty transcript. Audio may be too quiet or silent." })
        ∧ (∀ m, jsFalsyStr audio = false → provider = .err (some m) → m ≠ "" →
            transcribeHandler audio provider = { status := 500, error := some m })
        ∧ (jsFalsyStr audio = false → provider = .err none →
            transcribeHandler audio provider
              = { status := 500, error := some "Transcription failed" }) := by
  intro audio provider
  refine ⟨?_, ?_, ?_, ?_⟩
  · intro h
    simp [transcribeHandler, h]
  · intro t hf hp he
    subst hp
    simp [transcribeHandler, hf, he]
  · intro m hf hp hm
    subst hp
    simp [transcribeHandler, hf, jsOr, Option.getD, hm]
  · intro hf hp
    subst hp
    simp [transcribeHandler, hf, jsOr, Option.getD]

/-- Witness for claim C8: one concrete request per branch of the
status taxonomy. -/
theorem c8_status_taxonomy_witness :
    transcribeHandler none (.ok "hi")
        = { status := 400, error := some "Audio data required" }
      ∧ transcribeHandler (some "UklGR") (.ok "  ")
          = { status := 422,
              error := some
                "Gemini returned an empty transcript. Audio may be too quiet or silent." }
      ∧ transcribeHandler (some "UklGR") (.err (some "quota exceeded"))
          = { status := 500, error := some "quota exceeded" }
      ∧ transcribeHandler (some "UklGR") (.err none)
          = { status := 500, error := some "Transcription failed" } :=
  ⟨(c8_status_taxonomy none (.ok "hi")).1 (by decide),
   (c8_status_taxonomy (some "UklGR") (.ok "  ")).2.1 "  " (by decide) rfl (by decide),
   (c8_status_taxonomy (some "UklGR") (.err (some "quota exceeded"))).2.2.1
     "quota exceeded" (by decide) rfl (by decide),
   (c8_status_taxonomy (some "UklGR") (.err none)).2.2.2 (by decide) rfl⟩

/-- Claim C9: the "See a Doctor If" matcher fires on the content line
`"- Seek medical help"` even though that line contains no colon and
no literal header text; scanned under an open "Next Steps" section it
therefore opens "See a Doctor If" as an empty list instead of being
appended to "Next Steps" as a bullet. -/
theorem c9_seeDoctor_matcher :
    seeDoctorTest "- Seek medical help" = true
      ∧ ("- Seek medical help".data.all fun c => c ≠ ':') = true
      ∧ firstMatcher "- Seek medical help" = some .seeDoctorIf
      ∧ formatBotReply "Next Steps:\n- Seek medical help"
          = { nextSteps := some [], seeDoctorIf := some [] } := by
  decide

/-- Claim C10, as stated, is false on the code: the bullet line
`"- Severity: Low"`, scanned while the scalar section Severity is
current, is not dropped — it matches the Severity header pattern
itself, so it overwrites the already-captured value `"High"` with
`"-  Low"`. -/
theorem c10_counterexample :
    startsDash "- Severity: Low" = true
      ∧ (processFrom {} ["Severity: High"]).currentKey = some .severity
      ∧ isListKey .severity = false
      ∧ formatBotReply "Severity: High" = { severity := some "High" }
      ∧ formatBotReply "Severity: High\n- Severity: Low" = { severity := some "-  Low" } := by
  decide

/-- Claim C10 (amended): a line on which no header pattern fires —
bullet or not — scanned while no section is open or while the current
section is a scalar section (Severity, Immediate Need for Attention,
Disclaimer), leaves the parse state entirely unchanged: it is
appended to no list and every captured value survives as it was. -/
theorem c10_amended :
    ∀ (st : ParseState) (line : String),
      firstMatcher line = none →
      (st.currentKey = none ∨ ∃ k, st.currentKey = some k ∧ isListKey k = false) →
      step st line = st := by
  intro st line h hd
  rcases hd with hck | ⟨k, hck, hkl⟩
  · calc step st line
        = ⟨stepContent st.sections st.currentKey line, st.currentKey⟩ := step_noMatch _ h
      _ = ⟨st.sections, st.currentKey⟩ := by rw [hck]; rfl
      _ = st := rfl
  · have harr : arrayAt st.sections k = none := by
      cases k <;> simp_all [isListKey, arrayAt]
    calc step st line
        = ⟨stepContent st.sections st.currentKey line, st.currentKey⟩ := step_noMatch _ h
      _ = ⟨st.sections, st.currentKey⟩ := by rw [hck]; simp [stepContent, harr]
      _ = st := rfl

/-- Witness for the amended claim C10: the plain bullet
`"- drink water"` is dropped both in the initial state (no open
section) and under the open scalar section Severity. -/
theorem c10_amended_witness :
    step {} "- drink water" = {}
      ∧ step (processFrom {} ["Severity: High"]) "- drink water"
          = processFrom {} ["Severity: High"] :=
  ⟨c10_amended {} "- drink water" (by decide) (Or.inl rfl),
   c10_amended (processFrom {} ["Severity: High"]) "- drink water" (by decide)
     (Or.inr ⟨.severity, by decide, by decide⟩)⟩
